import Mathlib

/-!
Verification development for the HY-export batch pipeline.

The Python sources are shallowly embedded as executable Lean definitions:
strings are Lean `String` / `List Char` (the inputs of interest are ASCII,
where Python's `str.upper` / `str.lower` / `unicodedata.normalize('NFC', ·)`
agree with the character-wise ASCII operations used here), floats are
modelled as rationals, and the fixed-length regular expressions of
`naming_rules.py` are modelled as explicit character-shape scanners
(Python's `re.search` returns the leftmost match; for a fixed-length
pattern without alternation that is the first position whose slice fits
the shape).
-/

namespace HY

/-! ### Character classes used by the regular expressions -/

/-- The regex class of an ASCII uppercase letter, Python regex class A-Z. -/
def upAZ (c : Char) : Bool := 'A' ≤ c && c ≤ 'Z'

/-- The regex class of an ASCII decimal digit 0-9. -/
def digCh (c : Char) : Bool := '0' ≤ c && c ≤ '9'

/-- The literal hyphen of the patterns. -/
def dashCh (c : Char) : Bool := c = '-'

/-- Does the list of characters start with the given fixed shape
(one Boolean character test per pattern position)? -/
def matchesAt : List (Char → Bool) → List Char → Bool
  | [], _ => true
  | _ :: _, [] => false
  | p :: ps, c :: cs => p c && matchesAt ps cs

/-- Leftmost search of a fixed-length shape, as Python re.search does for the
fixed-length patterns of naming_rules.py; returns the matched slice. -/
def reSearch (pat : List (Char → Bool)) : List Char → Option (List Char)
  | [] => if matchesAt pat [] then some [] else none
  | c :: cs =>
      if matchesAt pat (c :: cs) then some ((c :: cs).take pat.length)
      else reSearch pat cs

/-- PATTERN_FULL of naming_rules.py, the LOT shape: 3 uppercase letters,
a hyphen, 4 digits, a hyphen, 4 digits. -/
def PATTERN_FULL : List (Char → Bool) :=
  [upAZ, upAZ, upAZ, dashCh,
   digCh, digCh, digCh, digCh, dashCh,
   digCh, digCh, digCh, digCh]

/-- PATTERN_TAG of naming_rules.py, the TAG shape: 3 uppercase letters,
a hyphen, 4 digits, a hyphen, 5 digits. -/
def PATTERN_TAG : List (Char → Bool) :=
  [upAZ, upAZ, upAZ, dashCh,
   digCh, digCh, digCh, digCh, dashCh,
   digCh, digCh, digCh, digCh, digCh]

/-- Split a character list at every occurrence of a separator character,
Python's str.split(sep) for a one-character separator. -/
def splitOnChar (sep : Char) : List Char → List (List Char)
  | [] => [[]]
  | c :: cs =>
      let r := splitOnChar sep cs
      if c = sep then [] :: r
      else (c :: r.headD []) :: r.tail

/-- The middle segment of a matched code, Python's code.split("-")[1]. -/
def middleSeg (cs : List Char) : String :=
  String.mk ((splitOnChar '-' cs).getD 1 [])

/-- extract_id_lot_tag of naming_rules.py: uppercase the text, search the
TAG pattern and the LOT pattern independently, take the id from the TAG
match when present, else from the LOT match; absent values are "". -/
def extract_id_lot_tag (text : String) : String × String × String :=
  if text = "" then ("", "", "")
  else
    let t := text.toList.map Char.toUpper
    let mTag := reSearch PATTERN_TAG t
    let mLot := reSearch PATTERN_FULL t
    let idVal : Option String :=
      match mTag with
      | some cs => some (middleSeg cs)
      | none => mLot.map middleSeg
    (idVal.getD "",
     (mLot.map fun cs => String.mk cs).getD "",
     (mTag.map fun cs => String.mk cs).getD "")

/-! ### Natural sort (image_grouping.py) -/

/-- One token of the natural-sort key built by _natural_sort_key:
a digit run becomes its integer value, any other run is kept as a
lowercased string.  Python never compares a num token with a sstr token
for keys produced by the tokenizer (token types alternate by position),
so the cross-constructor ordering below is arbitrary and unused. -/
inductive NatKey where
  | num : Nat → NatKey
  | sstr : String → NatKey
deriving DecidableEq

/-- Integer value of a digit run, Python's int(s). -/
def digitsToNat (l : List Char) : Nat :=
  l.foldl (fun n c => 10 * n + (c.toNat - 48)) 0

/-- Close the current run as one key token. -/
def mkTok (isNum : Bool) (acc : List Char) : NatKey :=
  if isNum then NatKey.num (digitsToNat acc)
  else NatKey.sstr (String.mk (acc.map Char.toLower))

/-- State machine of re.split(r'(d+)') followed by the per-token mapping of
_natural_sort_key: isNum tells whether the run in acc is a digit run;
the produced token list alternates non-digit and digit tokens, starting
and ending with a (possibly empty) non-digit token, exactly as re.split
with a captured group does. -/
def splitGo (isNum : Bool) (acc : List Char) : List Char → List NatKey
  | [] => if isNum then [mkTok true acc, mkTok false []] else [mkTok false acc]
  | c :: cs =>
      if digCh c = isNum then splitGo isNum (acc ++ [c]) cs
      else mkTok isNum acc :: splitGo (digCh c) [c] cs

/-- _natural_sort_key of image_grouping.py. -/
def naturalSortKey (s : String) : List NatKey := splitGo false [] s.toList

/-- Ordering on key tokens: numbers by value, strings lexicographically by
code point (Python string comparison on the already lowercased runs). -/
def tokCmp : NatKey → NatKey → Ordering
  | NatKey.num a, NatKey.num b => compare a b
  | NatKey.sstr a, NatKey.sstr b => compare a b
  | NatKey.num _, NatKey.sstr _ => Ordering.lt
  | NatKey.sstr _, NatKey.num _ => Ordering.gt

/-- Python list comparison on key token lists: lexicographic, a strict
prefix compares as less. -/
def keyCmp : List NatKey → List NatKey → Ordering
  | [], [] => Ordering.eq
  | [], _ :: _ => Ordering.lt
  | _ :: _, [] => Ordering.gt
  | a :: as, b :: bs =>
      match tokCmp a b with
      | Ordering.eq => keyCmp as bs
      | o => o

/-- Non-strict order on file names under the natural-sort key. -/
def fileLe (a b : String) : Prop :=
  (keyCmp (naturalSortKey a) (naturalSortKey b) ≠ Ordering.gt)

instance : DecidableRel fileLe := fun a b =>
  inferInstanceAs
    (Decidable (keyCmp (naturalSortKey a) (naturalSortKey b) ≠ Ordering.gt))

/-- files.sort(key=_natural_sort_key) of list_images: a stable sort by the
natural-sort key (insertion sort is stable, so it agrees with Python's
stable sort for this total preorder). -/
def sortFiles (files : List String) : List String :=
  files.insertionSort fileLe

/-! ### Grouping (image_grouping.py) -/

/-- The loop of group_images: walk the list in slices of step elements,
keeping only the full slices (the trailing partial slice is dropped). -/
def chunkGroups (step : Nat) (l : List α) : List (List α) :=
  if _h : 0 < step ∧ step ≤ l.length then
    l.take step :: chunkGroups step (l.drop step)
  else []
termination_by l.length
decreasing_by
  simp only [List.length_drop]
  omega

/-- _check_count_and_confirm of image_grouping.py, with the answer the user
gives to the soft askyesno warning passed in as confirm; the messagebox
side effects are dropped and only the decision is kept. -/
def check_count_and_confirm (total : Nat) (pack_mode : String)
    (confirm : Bool) : Bool :=
  if pack_mode = "1PACK" then
    if total % 2 ≠ 0 then false
    else if total ≠ 40 then confirm
    else true
  else if pack_mode = "2PACK" then
    if total % 3 ≠ 0 then false
    else if total ≠ 60 then confirm
    else true
  else false

/-- group_images of image_grouping.py over a directory listing given as the
list of its image file names: sort naturally, validate the count, then cut
into groups of step files.  An empty folder and a failed validation both
return the empty group list, as in the code. -/
def group_images (files : List String) (pack_mode : String)
    (confirm : Bool) : List (List String) :=
  let sorted := sortFiles files
  let total := sorted.length
  if total = 0 then []
  else if ¬ check_count_and_confirm total pack_mode confirm then []
  else chunkGroups (if pack_mode = "1PACK" then 2 else 3) sorted

/-! ### Reconciliation (the per-set body of _worker_s2 in main.py)

OCR confidences are Python floats; they are modelled as rationals, which
preserves the order and arithmetic facts the claims are about. -/

/-- One row of the S1 lookup table s1_lookup_data, keyed by SN. -/
structure LookupRow where
  ID1 : String
  Lot1 : String
  Tag1 : String
  Tag2 : String
deriving DecidableEq

/-- Python's x or y on strings: y when x is empty. -/
def pyOr (a b : String) : String := if a = "" then b else a

/-- The values _worker_s2 holds after extraction (and after fallback, which
rewrites the same variables): code fields plus the aggregated score and the
tentative needs_inspection flag. -/
structure StageVals where
  idVal : String
  lot : String
  tag1 : String
  tag2 : String
  avgScore : ℚ
  needs : Bool
deriving DecidableEq

/-- Steps A/B/1 of the _worker_s2 loop body: collect the positive scores,
extract (id, lot, tag1) from image 1's text and, in 2PACK mode, tag2 from
image 2's text, average the positive scores (0 when there are none), and
set the tentative needs_inspection flag. -/
def extractStage (pack_mode : String) (readings : List (String × ℚ))
    (minScore : ℚ) : StageVals :=
  let texts := readings.map Prod.fst
  let scores := (readings.map Prod.snd).filter (fun s => 0 < s)
  let e1 := extract_id_lot_tag (texts.headD "")
  let tag2 :=
    if pack_mode = "2PACK" ∧ 1 < texts.length then
      (extract_id_lot_tag (texts.getD 1 "")).2.2
    else ""
  let avg : ℚ := if scores.isEmpty then 0 else scores.sum / scores.length
  { idVal := e1.1
    lot := e1.2.1
    tag1 := e1.2.2
    tag2 := tag2
    avgScore := avg
    needs := decide (avg < minScore) || decide (e1.2.1 = "") ||
      decide (e1.2.2 = "") }

/-- Step 2 of the _worker_s2 loop body, the S1 backup: only when lot or
tag1 is empty and a lookup row exists for this SN, fill each empty field
from the row; tag2 only in 2PACK mode. -/
def fallbackStage (pack_mode : String) (st : StageVals)
    (s1Data : Option LookupRow) : StageVals :=
  match s1Data with
  | none => st
  | some d =>
      if st.lot = "" ∨ st.tag1 = "" then
        { st with
          idVal := pyOr st.idVal d.ID1
          lot := pyOr st.lot d.Lot1
          tag1 := pyOr st.tag1 d.Tag1
          tag2 := if pack_mode = "2PACK" then pyOr st.tag2 d.Tag2 else st.tag2 }
      else st

/-- Step 3 of the _worker_s2 loop body, the final safety net: a still-empty
lot becomes the sentinel NO_LOT and a still-empty tag1 becomes NO_TAG, both
forcing the inspection flag; the flag is then rendered as the literal cell
value of the 검수 필요 column. -/
def finalStage (st : StageVals) : StageVals × String :=
  let st1 := if st.lot = "" then { st with lot := "NO_LOT", needs := true } else st
  let st2 :=
    if st1.tag1 = "" then { st1 with tag1 := "NO_TAG", needs := true } else st1
  (st2, if st2.needs then "확인 요함" else "")

/-- The whole per-set pipeline of _worker_s2: extraction, S1 backup,
safety net. -/
def processSet (pack_mode : String) (readings : List (String × ℚ))
    (s1Data : Option LookupRow) (minScore : ℚ) : StageVals × String :=
  finalStage (fallbackStage pack_mode (extractStage pack_mode readings minScore) s1Data)

/-! ### Name synthesis (_rename_images in main.py) -/

/-- The two 1PACK target names of _rename_images, from the row values and
the suffixes of the two original files. -/
def rename_names_1pack (sn : Nat) (idVal lot tag1 suffix1 suffix2 : String) :
    List String :=
  let snBase := toString sn ++ ". " ++ idVal ++ "-" ++ lot
  [snBase ++ " (" ++ tag1 ++ ")" ++ suffix1,
   snBase ++ " (" ++ tag1 ++ ")-1" ++ suffix2]

/-! ### sanitize (processing_core.py)

Modelled on character lists over the ASCII range, where Python's
unicodedata.normalize('NFC', ·) is the identity; the remaining steps are
modelled one for one. -/

/-- Python str whitespace, the class stripped by str.strip() and matched
by the regex class backslash-s (ASCII range). -/
def isPyWs (c : Char) : Bool :=
  c = ' ' || c = '\t' || c = '\n' || c = '\x0d' || c = '\x0b' || c = '\x0c'

/-- Strip characters satisfying p from both ends, Python's str.strip. -/
def pyStrip (p : Char → Bool) (l : List Char) : List Char :=
  ((l.dropWhile p).reverse.dropWhile p).reverse

/-- FORBIDDEN_CHARS of processing_core.py. -/
def FORBIDDEN_CHARS : List Char :=
  ['<', '>', ':', '\"', '/', '\\', '|', '?', '*']

/-- The regex substitution of one or more whitespace characters by a single
space: prev records whether the previous character was whitespace. -/
def collapseWs (prev : Bool) : List Char → List Char
  | [] => []
  | c :: cs =>
      if isPyWs c then
        if prev then collapseWs true cs else ' ' :: collapseWs true cs
      else c :: collapseWs false cs

/-- sanitize of processing_core.py: NFC-normalize (identity here), strip,
delete every space, replace the forbidden file-name characters by an
underscore, collapse remaining whitespace runs to one space, strip
trailing and leading spaces and dots, truncate to 180 characters. -/
def sanitize (l : List Char) : List Char :=
  let s1 := pyStrip isPyWs l
  let s2 := s1.filter (fun c => c ≠ ' ')
  let s3 := s2.map (fun c => if c ∈ FORBIDDEN_CHARS then '_' else c)
  let s4 := collapseWs false s3
  let s5 := pyStrip (fun c => c = ' ' || c = '.') s4
  s5.take 180

/-! ### Excel template (excel_builder.py) -/

/-- One spreadsheet cell: the SN column holds integers, every other column
holds strings. -/
inductive Cell where
  | int : Int → Cell
  | str : String → Cell
deriving DecidableEq

/-- Is the cell a string cell? -/
def Cell.isStr : Cell → Bool
  | Cell.int _ => false
  | Cell.str _ => true

/-- S2_COLUMNS of excel_builder.py, in order. -/
def S2_COLUMNS : List String :=
  ["순번", "컨테이너 No", "품명", "Ton Bag No1", "Lot No1",
   "Ton Bag No2", "Lot No2", "ID1", "Lot1", "Tag1", "ID2", "Lot2",
   "Tag2", "검수 필요"]

/-- create_excel_template of excel_builder.py, as the ordered list of
(column name, column cells): a non-positive set count is clamped to 1;
the SN column 순번 is filled with the integers 1..n, the container column
with the container name, everything else with empty strings, and the
astype(str) pass keeps every non-SN column a string column. -/
def create_excel_template (num_sets : Int) (container_name : String) :
    List (String × List Cell) :=
  let n : Nat := if num_sets ≤ 0 then 1 else num_sets.toNat
  S2_COLUMNS.map fun col =>
    (col,
      if col = "순번" then (List.range n).map fun i => Cell.int (Int.ofNat (i + 1))
      else if col = "컨테이너 No" then List.replicate n (Cell.str container_name)
      else List.replicate n (Cell.str ""))

/-! ### Report (report.py) -/

/-- The group size per pack mode named by the spec: 2 for 1PACK, 3 for
2PACK (generate_report and group_images both use the else-branch 3 for
anything that is not 1PACK). -/
def groupSizeOf (pack_mode : String) : Nat :=
  if pack_mode = "1PACK" then 2 else 3

/-- The numeric content of a generated report. -/
structure ReportData where
  numSets : Nat
  expectedImages : Nat
  actualImages : Int
  diffReported : Option Int
deriving DecidableEq

/-- The count bookkeeping of generate_report in report.py, over the result
table given as its list of rows: the expected image count per pack mode,
and the difference line, which is emitted only when actual and expected
counts disagree. -/
def generate_report (dfRows : List (List Cell)) (pack_mode : String)
    (image_count : Int) : ReportData :=
  let num_sets := dfRows.length
  let expected : Nat := if pack_mode = "1PACK" then num_sets * 2 else num_sets * 3
  let diff : Int := image_count - expected
  { numSets := num_sets
    expectedImages := expected
    actualImages := image_count
    diffReported := if diff = 0 then none else some diff }

/-! ### Lemmas about the grouping loop -/

theorem chunkGroups_nil_cond {α : Type} (step : Nat) :
    ¬ (0 < step ∧ step ≤ ([] : List α).length) := by
  simp only [List.length_nil]
  omega

theorem chunkGroups_join_of_mul {α : Type} (step : Nat) (hs : 0 < step) :
    ∀ (k : Nat) (l : List α), l.length = step * k →
      (chunkGroups step l).flatten = l ∧ (chunkGroups step l).length = k := by
  intro k
  induction k with
  | zero =>
      intro l hl
      have hnil : l = [] := List.length_eq_zero.mp (by simpa using hl)
      subst hnil
      rw [chunkGroups, dif_neg (chunkGroups_nil_cond step)]
      simp
  | succ k ih =>
      intro l hl
      have hle : step ≤ l.length := by
        have h1 : step * 1 ≤ step * (k + 1) := Nat.mul_le_mul_left _ (by omega)
        simpa [hl] using h1
      have hdl : (l.drop step).length = step * k := by
        rw [List.length_drop, hl, Nat.mul_succ]
        omega
      obtain ⟨hj, hlen⟩ := ih (l.drop step) hdl
      rw [chunkGroups, dif_pos ⟨hs, hle⟩]
      refine ⟨?_, by simpa using hlen⟩
      rw [List.flatten_cons, hj]
      exact List.take_append_drop step l

theorem chunkGroups_forall_length {α : Type} (step : Nat) :
    ∀ (n : Nat) (l : List α), l.length ≤ n →
      ∀ g ∈ chunkGroups step l, g.length = step := by
  intro n
  induction n with
  | zero =>
      intro l hl g hg
      have hnil : l = [] := List.length_eq_zero.mp (by omega)
      subst hnil
      rw [chunkGroups, dif_neg (chunkGroups_nil_cond step)] at hg
      simp at hg
  | succ n ih =>
      intro l hl g hg
      rw [chunkGroups] at hg
      by_cases h : 0 < step ∧ step ≤ l.length
      · rw [dif_pos h] at hg
        rcases List.mem_cons.mp hg with hg1 | hg2
        · subst hg1
          simp [List.length_take, Nat.min_eq_left h.2]
        · exact ih (l.drop step) (by simp [List.length_drop]; omega) g hg2
      · rw [dif_neg h] at hg
        simp at hg

theorem chunkGroups_len_mem {α : Type} (step : Nat) (l : List α) :
    ∀ g ∈ chunkGroups step l, g.length = step :=
  chunkGroups_forall_length step l.length l le_rfl

/-- C5: for every file list and pack mode (with the soft non-recommended-count
warning confirmed), the count check passes iff the file count is divisible by
the mode's group size; when it is, group_images returns count/groupSize sets
taken consecutively from the naturally sorted file list; and every emitted
set has exactly groupSize members, so no partial trailing group is ever
emitted. -/
theorem group_images_spec (files : List String) (pack_mode : String)
    (hm : pack_mode = "1PACK" ∨ pack_mode = "2PACK") :
    (check_count_and_confirm files.length pack_mode true = true ↔
        files.length % groupSizeOf pack_mode = 0) ∧
    (files.length % groupSizeOf pack_mode = 0 →
        (group_images files pack_mode true).length =
          files.length / groupSizeOf pack_mode ∧
        (group_images files pack_mode true).flatten = sortFiles files) ∧
    (∀ g ∈ group_images files pack_mode true,
        g.length = groupSizeOf pack_mode) := by
  have hsort : (sortFiles files).length = files.length :=
    List.length_insertionSort _ _
  have hgs : groupSizeOf pack_mode = if pack_mode = "1PACK" then 2 else 3 := rfl
  have hgs_pos : 0 < groupSizeOf pack_mode := by
    rw [hgs]; split <;> omega
  have hcheck : check_count_and_confirm files.length pack_mode true = true ↔
      files.length % groupSizeOf pack_mode = 0 := by
    rcases hm with h | h <;> subst h <;>
      simp only [check_count_and_confirm, groupSizeOf] <;>
      split_ifs <;> simp_all
  refine ⟨hcheck, ?_, ?_⟩
  · intro hdiv
    obtain ⟨k, hk⟩ := Nat.dvd_of_mod_eq_zero hdiv
    have hlk : (sortFiles files).length = groupSizeOf pack_mode * k := by
      rw [hsort, hk]
    obtain ⟨hj, hlen⟩ := chunkGroups_join_of_mul (groupSizeOf pack_mode)
      hgs_pos k (sortFiles files) hlk
    have hkdiv : k = files.length / groupSizeOf pack_mode := by
      rw [hk, Nat.mul_div_cancel_left _ hgs_pos]
    by_cases h0 : (sortFiles files).length = 0
    · have hfe : sortFiles files = [] := List.length_eq_zero.mp h0
      have hf0 : files.length = 0 := by rw [← hsort]; exact h0
      have e0 : group_images files pack_mode true = [] := by
        simp only [group_images]
        rw [if_pos h0]
      rw [e0]
      refine ⟨by simp [hf0], ?_⟩
      rw [hfe]
      rfl
    · have hcc : check_count_and_confirm (sortFiles files).length pack_mode true
          = true := by rw [hsort]; exact hcheck.mpr hdiv
      have e1 : group_images files pack_mode true =
          chunkGroups (groupSizeOf pack_mode) (sortFiles files) := by
        simp only [group_images]
        rw [if_neg h0, if_neg (not_not_intro hcc), ← hgs]
      rw [e1]
      exact ⟨by rw [hlen, hkdiv], hj⟩
  · intro g hg
    simp only [group_images] at hg
    by_cases h0 : (sortFiles files).length = 0
    · rw [if_pos h0] at hg
      simp at hg
    · rw [if_neg h0] at hg
      by_cases h2 : check_count_and_confirm (sortFiles files).length pack_mode
          true = true
      · rw [if_neg (not_not_intro h2)] at hg
        exact chunkGroups_len_mem (groupSizeOf pack_mode) (sortFiles files) g hg
      · rw [if_pos h2] at hg
        simp at hg

/-- Witness for group_images_spec at a concrete two-file 1PACK input. -/
theorem group_images_spec_witness :
    (group_images ["b.jpg", "a.jpg"] "1PACK" true).length =
      (["b.jpg", "a.jpg"] : List String).length / groupSizeOf "1PACK" ∧
    (group_images ["b.jpg", "a.jpg"] "1PACK" true).flatten =
      sortFiles ["b.jpg", "a.jpg"] :=
  (group_images_spec ["b.jpg", "a.jpg"] "1PACK" (Or.inl rfl)).2.1 (by decide)

/-! ### Extraction claims -/

/-- C1, counterexample: on the input of the claim the code does NOT return
an empty lot, because the unanchored LOT pattern also matches the 13-character
prefix of the TAG substring (the returned triple is in code order
id, lot, tag). -/
theorem extract_noise_counterexample :
    ¬ (extract_id_lot_tag "noise nsh-2511-10762 more" =
        ("2511", "", "NSH-2511-10762")) := by decide

/-- C1, amended: extract_id_lot_tag on the claimed input returns id 2511 and
tag NSH-2511-10762 as claimed, but lot is NSH-2511-1076 (the LOT-shaped
prefix of the TAG match), not the empty string. -/
theorem extract_noise_example :
    extract_id_lot_tag "noise nsh-2511-10762 more" =
      ("2511", "NSH-2511-1076", "NSH-2511-10762") := by decide

/-- C10: sorting the three claimed file names with the natural-sort key
gives the human-expected numeric order. -/
theorem natural_sort_example :
    sortFiles ["IMG_2.jpg", "IMG_10.jpg", "IMG_1.jpg"] =
      ["IMG_1.jpg", "IMG_2.jpg", "IMG_10.jpg"] := by decide

/-- C6: in 1PACK mode the two synthesized names follow the claimed
templates for every SN, id, lot, tag1 and suffix pair, and the concrete
instance of the claim evaluates to exactly the two claimed names. -/
theorem rename_names_1pack_spec (sn : Nat)
    (idVal lot tag1 suffix1 suffix2 : String) :
    rename_names_1pack sn idVal lot tag1 suffix1 suffix2 =
      [toString sn ++ ". " ++ idVal ++ "-" ++ lot ++ " (" ++ tag1 ++ ")" ++
        suffix1,
       toString sn ++ ". " ++ idVal ++ "-" ++ lot ++ " (" ++ tag1 ++ ")-1" ++
        suffix2] ∧
    rename_names_1pack 3 "2511" "NSH-2511-1077" "NSH-2511-10762" ".jpg" ".jpg" =
      ["3. 2511-NSH-2511-1077 (NSH-2511-10762).jpg",
       "3. 2511-NSH-2511-1077 (NSH-2511-10762)-1.jpg"] :=
  ⟨rfl, by decide⟩

/-! ### Reconciliation lemmas -/

theorem pyOr_eq_empty {a b : String} (h : pyOr a b = "") : a = "" := by
  by_cases ha : a = ""
  · exact ha
  · rw [pyOr, if_neg ha] at h
    exact absurd h ha

theorem pyOr_ne {a b : String} (ha : a ≠ "") : pyOr a b = a := by
  rw [pyOr, if_neg ha]

theorem fallbackStage_needs (pm : String) (st : StageVals)
    (s1 : Option LookupRow) : (fallbackStage pm st s1).needs = st.needs := by
  cases s1 with
  | none => rfl
  | some d =>
      simp only [fallbackStage]
      split
      · rfl
      · rfl

theorem fallbackStage_lot_empty (pm : String) (st : StageVals)
    (s1 : Option LookupRow) :
    (fallbackStage pm st s1).lot = "" → st.lot = "" := by
  cases s1 with
  | none => exact fun h => h
  | some d =>
      simp only [fallbackStage]
      split
      · exact fun h => pyOr_eq_empty h
      · exact fun h => h

theorem fallbackStage_tag1_empty (pm : String) (st : StageVals)
    (s1 : Option LookupRow) :
    (fallbackStage pm st s1).tag1 = "" → st.tag1 = "" := by
  cases s1 with
  | none => exact fun h => h
  | some d =>
      simp only [fallbackStage]
      split
      · exact fun h => pyOr_eq_empty h
      · exact fun h => h

theorem finalStage_needs (st : StageVals) :
    (finalStage st).1.needs =
      (st.needs || decide (st.lot = "") || decide (st.tag1 = "")) := by
  simp only [finalStage]
  by_cases hl : st.lot = "" <;> by_cases ht : st.tag1 = "" <;>
    simp [hl, ht]

theorem finalStage_lot (st : StageVals) :
    (finalStage st).1.lot = if st.lot = "" then "NO_LOT" else st.lot := by
  simp only [finalStage]
  by_cases hl : st.lot = "" <;> by_cases ht : st.tag1 = "" <;>
    simp [hl, ht]

theorem finalStage_tag1 (st : StageVals) :
    (finalStage st).1.tag1 = if st.tag1 = "" then "NO_TAG" else st.tag1 := by
  simp only [finalStage]
  by_cases hl : st.lot = "" <;> by_cases ht : st.tag1 = "" <;>
    simp [hl, ht]

/-- C2: the aggregated confidence is the arithmetic mean of the strictly
positive per-image scores (0 when none is positive), and the final
inspection flag of the set is true exactly when that aggregate is below the
threshold, or the lot extracted from image 1's text is empty, or the tag1
extracted from image 1's text is empty - with emptiness judged on the
values before the S1 fallback, so a later fill never clears the flag. -/
theorem processSet_avg_inspection (pack_mode : String)
    (readings : List (String × ℚ)) (s1Data : Option LookupRow) (T : ℚ) :
    (extractStage pack_mode readings T).avgScore =
      (if ((readings.map Prod.snd).filter fun s => 0 < s) = [] then 0
       else ((readings.map Prod.snd).filter fun s => 0 < s).sum /
         (((readings.map Prod.snd).filter fun s => 0 < s).length : ℚ)) ∧
    ((processSet pack_mode readings s1Data T).1.needs = true ↔
      ((extractStage pack_mode readings T).avgScore < T ∨
        (extract_id_lot_tag ((readings.map Prod.fst).headD "")).2.1 = "" ∨
        (extract_id_lot_tag ((readings.map Prod.fst).headD "")).2.2 = "")) := by
  constructor
  · cases h : (readings.map Prod.snd).filter fun s => 0 < s with
    | nil => simp [extractStage, h]
    | cons a as => simp [extractStage, h]
  · have hstl : (extractStage pack_mode readings T).lot =
        (extract_id_lot_tag ((readings.map Prod.fst).headD "")).2.1 := rfl
    have hstt : (extractStage pack_mode readings T).tag1 =
        (extract_id_lot_tag ((readings.map Prod.fst).headD "")).2.2 := rfl
    have hstn : (extractStage pack_mode readings T).needs = true ↔
        ((extractStage pack_mode readings T).avgScore < T ∨
          (extractStage pack_mode readings T).lot = "" ∨
          (extractStage pack_mode readings T).tag1 = "") := by
      simp only [show (extractStage pack_mode readings T).needs =
          (decide ((extractStage pack_mode readings T).avgScore < T) ||
            decide ((extractStage pack_mode readings T).lot = "") ||
            decide ((extractStage pack_mode readings T).tag1 = "")) from rfl,
        Bool.or_eq_true, decide_eq_true_eq]
      exact or_assoc
    have hfn := fallbackStage_needs pack_mode
      (extractStage pack_mode readings T) s1Data
    have hfl := fallbackStage_lot_empty pack_mode
      (extractStage pack_mode readings T) s1Data
    have hft := fallbackStage_tag1_empty pack_mode
      (extractStage pack_mode readings T) s1Data
    rw [show (processSet pack_mode readings s1Data T).1 =
        (finalStage (fallbackStage pack_mode
          (extractStage pack_mode readings T) s1Data)).1 from rfl,
      finalStage_needs, ← hstl, ← hstt]
    simp only [Bool.or_eq_true, decide_eq_true_eq, hfn]
    constructor
    · rintro ((h | h) | h)
      · exact hstn.mp h
      · exact Or.inr (Or.inl (hfl h))
      · exact Or.inr (Or.inr (hft h))
    · intro h
      exact Or.inl (Or.inl (hstn.mpr h))

/-- C3: when extraction and fallback leave lot empty, the finalized row
carries the sentinel NO_LOT and is flagged for inspection; symmetrically an
empty tag1 becomes NO_TAG with the flag forced; and every finalized row has
non-empty lot and tag1. -/
theorem processSet_sentinels (pack_mode : String)
    (readings : List (String × ℚ)) (s1Data : Option LookupRow) (T : ℚ) :
    ((fallbackStage pack_mode (extractStage pack_mode readings T) s1Data).lot
        = "" →
      (processSet pack_mode readings s1Data T).1.lot = "NO_LOT" ∧
      (processSet pack_mode readings s1Data T).1.needs = true) ∧
    ((fallbackStage pack_mode (extractStage pack_mode readings T) s1Data).tag1
        = "" →
      (processSet pack_mode readings s1Data T).1.tag1 = "NO_TAG" ∧
      (processSet pack_mode readings s1Data T).1.needs = true) ∧
    (processSet pack_mode readings s1Data T).1.lot ≠ "" ∧
    (processSet pack_mode readings s1Data T).1.tag1 ≠ "" := by
  have hp : (processSet pack_mode readings s1Data T).1 =
      (finalStage (fallbackStage pack_mode
        (extractStage pack_mode readings T) s1Data)).1 := rfl
  refine ⟨fun h => ⟨?_, ?_⟩, fun h => ⟨?_, ?_⟩, ?_, ?_⟩
  · rw [hp, finalStage_lot, if_pos h]
  · rw [hp, finalStage_needs, h]
    simp
  · rw [hp, finalStage_tag1, if_pos h]
  · rw [hp, finalStage_needs, h]
    simp
  · rw [hp, finalStage_lot]
    split
    · decide
    · assumption
  · rw [hp, finalStage_tag1]
    split
    · decide
    · assumption

/-- Witness for processSet_sentinels: a set whose single reading is blank
and that has no lookup row gets both sentinels. -/
theorem processSet_sentinels_witness :
    (processSet "1PACK" [("", 0)] none (3 / 10)).1.lot = "NO_LOT" ∧
    (processSet "1PACK" [("", 0)] none (3 / 10)).1.tag1 = "NO_TAG" :=
  ⟨((processSet_sentinels "1PACK" [("", 0)] none (3 / 10)).1 (by decide)).1,
   ((processSet_sentinels "1PACK" [("", 0)] none (3 / 10)).2.1 (by decide)).1⟩

/-- C4: the S1 fallback never overwrites a non-empty extracted field, even
when a lookup row with different values exists; it rewrites nothing at all
unless lot or tag1 is empty, and it does nothing when no lookup row exists
for the SN. -/
theorem fallback_fill_only_empty (pack_mode : String)
    (readings : List (String × ℚ)) (T : ℚ) (d : LookupRow) :
    ((extractStage pack_mode readings T).idVal ≠ "" →
      (fallbackStage pack_mode (extractStage pack_mode readings T)
        (some d)).idVal = (extractStage pack_mode readings T).idVal) ∧
    ((extractStage pack_mode readings T).lot ≠ "" →
      (fallbackStage pack_mode (extractStage pack_mode readings T)
        (some d)).lot = (extractStage pack_mode readings T).lot) ∧
    ((extractStage pack_mode readings T).tag1 ≠ "" →
      (fallbackStage pack_mode (extractStage pack_mode readings T)
        (some d)).tag1 = (extractStage pack_mode readings T).tag1) ∧
    ((extractStage pack_mode readings T).tag2 ≠ "" →
      (fallbackStage pack_mode (extractStage pack_mode readings T)
        (some d)).tag2 = (extractStage pack_mode readings T).tag2) ∧
    ((extractStage pack_mode readings T).lot ≠ "" ∧
        (extractStage pack_mode readings T).tag1 ≠ "" →
      fallbackStage pack_mode (extractStage pack_mode readings T) (some d) =
        extractStage pack_mode readings T) ∧
    fallbackStage pack_mode (extractStage pack_mode readings T) none =
      extractStage pack_mode readings T := by
  set st := extractStage pack_mode readings T with hst
  by_cases hc : st.lot = "" ∨ st.tag1 = ""
  · have he : fallbackStage pack_mode st (some d) =
        { st with
          idVal := pyOr st.idVal d.ID1
          lot := pyOr st.lot d.Lot1
          tag1 := pyOr st.tag1 d.Tag1
          tag2 := if pack_mode = "2PACK" then pyOr st.tag2 d.Tag2
            else st.tag2 } := by
      simp only [fallbackStage]
      rw [if_pos hc]
    refine ⟨?_, ?_, ?_, ?_, ?_, rfl⟩
    · intro h
      rw [he]
      exact pyOr_ne h
    · intro h
      rw [he]
      exact pyOr_ne h
    · intro h
      rw [he]
      exact pyOr_ne h
    · intro h
      rw [he]
      show (if pack_mode = "2PACK" then pyOr st.tag2 d.Tag2 else st.tag2)
          = st.tag2
      by_cases hp : pack_mode = "2PACK"
      · rw [if_pos hp]
        exact pyOr_ne h
      · rw [if_neg hp]
    · intro hne
      rcases hc with h | h
      · exact absurd h hne.1
      · exact absurd h hne.2
  · have he : fallbackStage pack_mode st (some d) = st := by
      simp only [fallbackStage]
      rw [if_neg hc]
    exact ⟨fun _ => by rw [he], fun _ => by rw [he], fun _ => by rw [he],
      fun _ => by rw [he], fun _ => he, rfl⟩

/-- Witness for fallback_fill_only_empty: a non-empty extracted lot survives
a lookup row holding a different lot. -/
theorem fallback_fill_only_empty_witness :
    (fallbackStage "1PACK" (extractStage "1PACK" [("abc-1111-2222", 1)] 0)
        (some ⟨"9", "XYZ-9999-9999", "XYZ-9999-99999", "XYZ-8888-88888"⟩)).lot
      = (extractStage "1PACK" [("abc-1111-2222", 1)] 0).lot :=
  (fallback_fill_only_empty "1PACK" [("abc-1111-2222", 1)] 0
    ⟨"9", "XYZ-9999-9999", "XYZ-9999-99999", "XYZ-8888-88888"⟩).2.1 (by decide)

/-! ### Excel template and report claims -/

/-- C8, counterexample: for N = 0 sets the built table does not have 0 rows;
the code clamps a non-positive set count to 1, so every column holds one
row. -/
theorem create_template_zero_rows :
    ¬ (∀ p ∈ create_excel_template 0 "X", p.2.length = 0) := by decide

/-- C8, amended: for every set count N with 1 ≤ N and every container name,
the table has exactly the fourteen S2 columns in order, every column holds
exactly N cells, the SN column is the dense integer sequence 1..N, and every
cell outside the SN column is a string cell. -/
theorem create_template_shape (N : Int) (c : String) (hN : 1 ≤ N) :
    (create_excel_template N c).map Prod.fst = S2_COLUMNS ∧
    (∀ p ∈ create_excel_template N c, p.2.length = N.toNat) ∧
    ((create_excel_template N c).headD ("", [])).2 =
      (List.range N.toNat).map (fun i => Cell.int (Int.ofNat (i + 1))) ∧
    (∀ p ∈ create_excel_template N c, p.1 ≠ "순번" →
      ∀ cell ∈ p.2, cell.isStr = true) := by
  have hn : create_excel_template N c = S2_COLUMNS.map fun col =>
      (col,
        if col = "순번" then
          (List.range N.toNat).map fun i => Cell.int (Int.ofNat (i + 1))
        else if col = "컨테이너 No" then
          List.replicate N.toNat (Cell.str c)
        else List.replicate N.toNat (Cell.str "")) := by
    simp only [create_excel_template]
    rw [if_neg (by omega)]
  refine ⟨?_, ?_, ?_, ?_⟩
  · rw [hn]
    rfl
  · intro p hp
    rw [hn] at hp
    rcases List.mem_map.mp hp with ⟨col, hcol, rfl⟩
    dsimp only
    split
    · simp
    · split <;> simp
  · rw [hn]
    simp only [S2_COLUMNS, List.map_cons, List.headD_cons]
    simp
  · intro p hp hne cell hcell
    rw [hn] at hp
    rcases List.mem_map.mp hp with ⟨col, hcol, rfl⟩
    dsimp only at hne hcell ⊢
    rw [if_neg hne] at hcell
    by_cases h2 : col = "컨테이너 No"
    · rw [if_pos h2] at hcell
      rw [List.eq_of_mem_replicate hcell]
      rfl
    · rw [if_neg h2] at hcell
      rw [List.eq_of_mem_replicate hcell]
      rfl

/-- Witness for create_template_shape at N = 2. -/
theorem create_template_shape_witness :
    (create_excel_template 2 "CT").map Prod.fst = S2_COLUMNS ∧
    ((create_excel_template 2 "CT").headD ("", [])).2 =
      (List.range (Int.toNat 2)).map (fun i => Cell.int (Int.ofNat (i + 1))) :=
  ⟨(create_template_shape 2 "CT" (by decide)).1,
   (create_template_shape 2 "CT" (by decide)).2.2.1⟩

/-- C9: for every result table and actual image count, the expected image
count of the report is the row count times the mode's group size, and when
the actual count disagrees with it, the reported difference is
actual minus expected. -/
theorem generate_report_counts (dfRows : List (List Cell))
    (pack_mode : String) (image_count : Int)
    (hm : pack_mode = "1PACK" ∨ pack_mode = "2PACK") :
    (generate_report dfRows pack_mode image_count).expectedImages =
      dfRows.length * groupSizeOf pack_mode ∧
    (image_count ≠ ((dfRows.length * groupSizeOf pack_mode : Nat) : Int) →
      (generate_report dfRows pack_mode image_count).diffReported =
        some (image_count -
          ((dfRows.length * groupSizeOf pack_mode : Nat) : Int))) := by
  rcases hm with h | h <;> subst h
  · have h2 : groupSizeOf "1PACK" = 2 := rfl
    rw [h2]
    constructor
    · simp [generate_report]
    · intro hne
      simp only [generate_report, eq_self_iff_true, if_true]
      rw [if_neg (by omega)]
  · have h3 : groupSizeOf "2PACK" = 3 := rfl
    have hne1 : ¬ (("2PACK" : String) = "1PACK") := by decide
    rw [h3]
    constructor
    · simp [generate_report, hne1]
    · intro hne
      simp only [generate_report]
      rw [if_neg hne1, if_neg (by omega)]

/-- Witness for generate_report_counts on a one-row table with five
images. -/
theorem generate_report_counts_witness :
    (generate_report ([[]] : List (List Cell)) "1PACK" 5).expectedImages =
      ([[]] : List (List Cell)).length * groupSizeOf "1PACK" ∧
    (generate_report ([[]] : List (List Cell)) "1PACK" 5).diffReported =
      some (5 - ((([[]] : List (List Cell)).length *
        groupSizeOf "1PACK" : Nat) : Int)) :=
  ⟨(generate_report_counts [[]] "1PACK" 5 (Or.inl rfl)).1,
   (generate_report_counts [[]] "1PACK" 5 (Or.inl rfl)).2 (by decide)⟩

/-! ### Lemmas about stripping, filtering and collapsing -/

theorem mapSelf {α : Type} (f : α → α) (l : List α)
    (h : ∀ c ∈ l, f c = c) : l.map f = l := by
  induction l with
  | nil => rfl
  | cons c cs ih =>
      rw [List.map_cons, h c (List.mem_cons_self c cs),
        ih fun x hx => h x (List.mem_cons_of_mem _ hx)]

theorem dropWhile_eq_self_of_no {α : Type} (p : α → Bool) (l : List α)
    (h : ∀ c ∈ l, p c = false) : l.dropWhile p = l := by
  cases l with
  | nil => rfl
  | cons c cs =>
      rw [List.dropWhile_cons_of_neg
        (by simp [h c (List.mem_cons_self c cs)])]

theorem dropWhile_dropWhile {α : Type} (p : α → Bool) (l : List α) :
    List.dropWhile p (List.dropWhile p l) = List.dropWhile p l := by
  induction l with
  | nil => rfl
  | cons c cs ih =>
      by_cases hp : p c = true
      · rw [List.dropWhile_cons_of_pos hp]
        exact ih
      · rw [List.dropWhile_cons_of_neg hp, List.dropWhile_cons_of_neg hp]

theorem head_false_of_dropWhile_self {α : Type} (p : α → Bool) {c : α}
    {cs : List α} (h : List.dropWhile p (c :: cs) = c :: cs) : p c = false := by
  by_cases hp : p c = true
  · rw [List.dropWhile_cons_of_pos hp] at h
    have hlen := congrArg List.length h
    have hle : (List.dropWhile p cs).length ≤ cs.length :=
      (List.dropWhile_sublist _).length_le
    simp only [List.length_cons] at hlen
    omega
  · exact Bool.eq_false_iff.mpr hp

theorem dropWhile_eq_self_of_prefix {α : Type} (p : α → Bool) {t u : List α}
    (hpre : t <+: u) (hu : List.dropWhile p u = u) :
    List.dropWhile p t = t := by
  cases t with
  | nil => rfl
  | cons c cs =>
      obtain ⟨r, hr⟩ := hpre
      rw [← hr] at hu
      have hu2 : List.dropWhile p (c :: (cs ++ r)) = c :: (cs ++ r) := hu
      have hc : p c = false := head_false_of_dropWhile_self p hu2
      rw [List.dropWhile_cons_of_neg (by simp [hc])]

theorem pyStrip_mem (p : Char → Bool) (l : List Char) :
    ∀ c ∈ pyStrip p l, c ∈ l := by
  intro c hc
  unfold pyStrip at hc
  rw [List.mem_reverse] at hc
  have h1 : c ∈ (List.dropWhile p l).reverse := List.dropWhile_subset _ hc
  rw [List.mem_reverse] at h1
  exact List.dropWhile_subset _ h1

theorem pyStrip_length_le (p : Char → Bool) (l : List Char) :
    (pyStrip p l).length ≤ l.length := by
  unfold pyStrip
  rw [List.length_reverse]
  have h1 : (List.dropWhile p (List.dropWhile p l).reverse).length ≤
      (List.dropWhile p l).reverse.length := (List.dropWhile_sublist _).length_le
  have h2 : (List.dropWhile p l).length ≤ l.length :=
    (List.dropWhile_sublist _).length_le
  rw [List.length_reverse] at h1
  omega

theorem pyStrip_eq_self (p : Char → Bool) (l : List Char)
    (h1 : List.dropWhile p l = l)
    (h2 : List.dropWhile p l.reverse = l.reverse) : pyStrip p l = l := by
  unfold pyStrip
  rw [h1, h2, List.reverse_reverse]

theorem pyStrip_rev_dropWhile (p : Char → Bool) (l : List Char) :
    List.dropWhile p (pyStrip p l).reverse = (pyStrip p l).reverse := by
  unfold pyStrip
  rw [List.reverse_reverse]
  exact dropWhile_dropWhile p _

theorem pyStrip_dropWhile (p : Char → Bool) (l : List Char) :
    List.dropWhile p (pyStrip p l) = pyStrip p l := by
  have hsuf : List.dropWhile p (List.dropWhile p l).reverse <:+
      (List.dropWhile p l).reverse := List.dropWhile_suffix _
  have h2 : (List.dropWhile p (List.dropWhile p l).reverse).reverse <+:
      ((List.dropWhile p l).reverse).reverse := List.reverse_prefix.mpr hsuf
  have hpre : pyStrip p l <+: List.dropWhile p l := by
    simpa [pyStrip, List.reverse_reverse] using h2
  exact dropWhile_eq_self_of_prefix p hpre (dropWhile_dropWhile p l)

theorem pyStrip_idem (p : Char → Bool) (l : List Char) :
    pyStrip p (pyStrip p l) = pyStrip p l :=
  pyStrip_eq_self p _ (pyStrip_dropWhile p l) (pyStrip_rev_dropWhile p l)

theorem collapseWs_eq_self (l : List Char)
    (h : ∀ c ∈ l, isPyWs c = false) : ∀ b, collapseWs b l = l := by
  induction l with
  | nil => intro b; rfl
  | cons c cs ih =>
      intro b
      have hc : isPyWs c = false := h c (List.mem_cons_self c cs)
      simp only [collapseWs, hc]
      rw [if_neg (by decide : ¬ (false = true))]
      exact congrArg (List.cons c)
        (ih (fun x hx => h x (List.mem_cons_of_mem _ hx)) false)

/-- C7, counterexample: sanitize is not idempotent.  An internal tab is
collapsed to a single space by the whitespace-collapsing substitution, but
a second application deletes that space, because the space-removal step
runs before the collapsing step. -/
theorem sanitize_not_idempotent :
    sanitize (sanitize ['a', '\t', 'b']) ≠ sanitize ['a', '\t', 'b'] := by
  decide

/-- C7, amended: sanitize is idempotent on every input (over the ASCII
range, where Unicode NFC normalization is the identity) that contains no
whitespace other than the space character and has at most 180 characters;
the counterexample's internal tab, and truncation past 180 characters
exposing a trailing dot or space, are exactly what the amendment
excludes. -/
theorem sanitize_idem (l : List Char)
    (hws : ∀ c ∈ l, isPyWs c = true → c = ' ')
    (hlen : l.length ≤ 180) :
    sanitize (sanitize l) = sanitize l := by
  set s1 : List Char := pyStrip isPyWs l with hs1
  set s2 : List Char := s1.filter (fun c => c ≠ ' ') with hs2
  set s3 : List Char :=
    s2.map (fun c => if c ∈ FORBIDDEN_CHARS then '_' else c) with hs3
  set s5 : List Char := pyStrip (fun c => c = ' ' || c = '.') s3 with hs5
  have hmem2 : ∀ c ∈ s2, isPyWs c = false := by
    intro c hc
    rw [hs2, List.mem_filter] at hc
    have hcl : c ∈ l := pyStrip_mem isPyWs l c (hs1 ▸ hc.1)
    have hne : c ≠ ' ' := by simpa using hc.2
    cases hpw : isPyWs c with
    | false => rfl
    | true => exact absurd (hws c hcl hpw) hne
  have hmem3 : ∀ c ∈ s3, isPyWs c = false ∧ c ∉ FORBIDDEN_CHARS := by
    intro c hc
    rw [hs3, List.mem_map] at hc
    obtain ⟨a, ha, rfl⟩ := hc
    by_cases hf : a ∈ FORBIDDEN_CHARS
    · rw [if_pos hf]
      exact ⟨by decide, by decide⟩
    · rw [if_neg hf]
      exact ⟨hmem2 a ha, hf⟩
  have hcol : collapseWs false s3 = s3 :=
    collapseWs_eq_self s3 (fun c hc => (hmem3 c hc).1) false
  have hmem5 : ∀ c ∈ s5, isPyWs c = false ∧ c ∉ FORBIDDEN_CHARS :=
    fun c hc => hmem3 c (pyStrip_mem _ _ c (hs5 ▸ hc))
  have hlen5 : s5.length ≤ 180 := by
    have h5 : s5.length ≤ s3.length := hs5 ▸ pyStrip_length_le _ _
    have h3 : s3.length = s2.length := by rw [hs3, List.length_map]
    have h2 : s2.length ≤ s1.length := hs2 ▸ List.length_filter_le _ _
    have h1 : s1.length ≤ l.length := hs1 ▸ pyStrip_length_le _ _
    omega
  have hL : sanitize l = s5 := by
    show (pyStrip (fun c => c = ' ' || c = '.') (collapseWs false s3)).take 180
      = s5
    rw [hcol]
    exact List.take_of_length_le hlen5
  have ht_nws : ∀ c ∈ s5, isPyWs c = false := fun c hc => (hmem5 c hc).1
  have a1 : pyStrip isPyWs s5 = s5 := by
    apply pyStrip_eq_self
    · exact dropWhile_eq_self_of_no _ _ ht_nws
    · exact dropWhile_eq_self_of_no _ _
        (fun c hc => ht_nws c (List.mem_reverse.mp hc))
  have a2 : s5.filter (fun c => c ≠ ' ') = s5 := by
    apply List.filter_eq_self.mpr
    intro c hc
    have hcw := ht_nws c hc
    simp only [decide_eq_true_eq]
    intro heq
    rw [heq] at hcw
    exact absurd hcw (by decide)
  have a3 : s5.map (fun c => if c ∈ FORBIDDEN_CHARS then '_' else c) = s5 :=
    mapSelf _ _ (fun c hc => if_neg (hmem5 c hc).2)
  have a4 : collapseWs false s5 = s5 := collapseWs_eq_self s5 ht_nws false
  have a5 : pyStrip (fun c => c = ' ' || c = '.') s5 = s5 := by
    rw [hs5]
    exact pyStrip_idem _ _
  have a6 : s5.take 180 = s5 := List.take_of_length_le hlen5
  rw [hL]
  show (pyStrip (fun c => c = ' ' || c = '.')
      (collapseWs false
        (((pyStrip isPyWs s5).filter (fun c => c ≠ ' ')).map
          (fun c => if c ∈ FORBIDDEN_CHARS then '_' else c)))).take 180 = s5
  rw [a1, a2, a3, a4, a5, a6]

/-- Witness for sanitize_idem on a short whitespace-free input. -/
theorem sanitize_idem_witness :
    sanitize (sanitize ['a', 'b']) = sanitize ['a', 'b'] :=
  sanitize_idem ['a', 'b'] (by decide) (by decide)

end HY
